import Mathlib

/-!
Verification of the workload-replay execution and benchmark comparison engine
(`misc/python/materialize/workload_replay/executor.py`).

The executable parts of `test` and the comparison tail of `benchmark` are
shallowly embedded below.  External collaborators (the composition client,
data generators, the worker bodies) are abstracted into an oracle
environment `Env`: the environment records the results the collaborators
would return (rows of the introspection queries per polling iteration,
whether the bulk loaders created data, the terminal outcome of each worker
thread).  The embedding produces the trace of observable events (prints,
sleeps, service start, cancellation-signal operations, thread start/join)
together with either the final statistics record or the uncaught error.
-/

set_option maxHeartbeats 1000000

deriving instance DecidableEq for Except

namespace WorkloadReplay

/-- Whether the first character list is an initial segment of the second. -/
def charsLead : List Char → List Char → Bool
  | [], _ => true
  | _ :: _, [] => false
  | p :: ps, c :: cs => p = c && charsLead ps cs

/-- `s.startswith(pat)` / SQL `LIKE 'pat%'`, computed on the character data
so that concrete instances evaluate by kernel reduction. -/
def strStarts (s pat : String) : Bool :=
  charsLead pat.data s.data

/-- Whether `pat` occurs as a contiguous subsequence of `l`. -/
def occursIn (pat : List Char) : List Char → Bool
  | [] => charsLead pat []
  | c :: cs => charsLead pat (c :: cs) || occursIn pat cs

/-- Services required by one connection type, mirroring the if/elif chain of
`test` (executor.py lines 79-96).  `none` means the type is unhandled and a
`ValueError` is raised. -/
def connServices (t : String) : Option (List String) :=
  if t = "postgres" then some ["postgres"]
  else if t = "mysql" then some ["mysql"]
  else if t = "sql-server" then some ["sql-server"]
  else if t = "kafka" ∨ t = "confluent-schema-registry" then
    some ["kafka", "schema-registry", "zookeeper"]
  else if t = "ssh-tunnel" then some ["ssh-bastion-host"]
  else if t = "iceberg-catalog" then some []
  else if t = "aws-privatelink" then some []
  else if t = "aws" then some []
  else none

/-- Add a service to the accumulated service set (Python `set.add`); the set
is modelled as a duplicate-free list in insertion order. -/
def addService (acc : List String) (s : String) : List String :=
  if s ∈ acc then acc else acc ++ [s]

/-- Scan the flattened sequence of connection type tags, accumulating the
required services; the first unhandled tag raises (executor.py lines 76-96).
The nested databases/schemas/objects dictionaries only determine the
iteration order, so the workload's connections are modelled as the flat
sequence of type tags in iteration order. -/
def scanServicesAux (acc : List String) : List String → Except String (List String)
  | [] => Except.ok acc
  | t :: rest =>
    match connServices t with
    | none => Except.error t
    | some svs => scanServicesAux (svs.foldl addService acc) rest

/-- The connection scan of `test`, started from the empty service set. -/
def scanServices (conns : List String) : Except String (List String) :=
  scanServicesAux [] conns

/-- The closed set of recognized connection types, as the spec enumerates it. -/
def knownConnectionTypes : List String :=
  ["postgres", "mysql", "sql-server", "kafka", "confluent-schema-registry",
   "ssh-tunnel", "iceberg-catalog", "aws-privatelink", "aws"]

/-- Observable events of one `test` run. -/
inductive Ev where
  | print (s : String)
  | up (services : List String)
  | sleep (n : Nat)
  | hydrationQuery (res : List String)
  | lagQuery (res : List (String × Nat))
  | setStop
  | clearStop
  | waitStop (timeout : Nat)
  | startThread (name : String)
  | joinThread (name : String)
  deriving DecidableEq, Repr

/-- Whether an event is a thread join. -/
def Ev.isJoin : Ev → Bool
  | Ev.joinThread _ => true
  | _ => false

/-- State of the hydration introspection tables at one polling iteration.
`objects` is `mz_objects` as (id, name); `hydration` and `computeHydration`
are `mz_internal.mz_hydration_statuses` and
`mz_internal.mz_compute_hydration_statuses` as (object_id, hydrated);
`sinks` is the id column of `mz_sinks`. -/
structure HydrState where
  objects : List (Nat × String)
  hydration : List (Nat × Bool)
  computeHydration : List (Nat × Bool)
  sinks : List Nat
  deriving DecidableEq, Repr

/-- One branch of the hydration query's UNION ALL: join `objects` with a
hydration-status table on id, keep rows that are not hydrated, whose name
does not start with the system prefix, and whose id is not a sink. -/
def joinNotHydrated (objects : List (Nat × String)) (statuses : List (Nat × Bool))
    (sinks : List Nat) : List String :=
  objects.flatMap (fun o =>
    statuses.filterMap (fun h =>
      if h.1 = o.1 ∧ h.2 = false ∧ ¬(strStarts o.2 "mz_") ∧ o.1 ∉ sinks then
        some o.2
      else none))

/-- The hydration wait's SQL query (executor.py lines 166-189): the UNION ALL
of the two status joins, with SELECT DISTINCT and ORDER BY name. -/
def hydrationQuery (s : HydrState) : List String :=
  (List.insertionSort (fun a b : String => a ≤ b)
    (joinNotHydrated s.objects s.hydration s.sinks ++
     joinNotHydrated s.objects s.computeHydration s.sinks)).dedup

/-- The "Not yet hydrated" progress line. -/
def notHydratedLine (nh : List String) : String :=
  "  Not yet hydrated: " ++ String.intercalate ", " nh

/-- Trace of the hydration polling loop (executor.py lines 163-197), driven by
the oracle's sequence of table states, one per iteration.  `prev` is the
previously printed set.  `none` models the loop never observing an empty
result within the oracle's trace, i.e. running forever. -/
def hydrationLoopTr : List HydrState → List String → Option (List Ev)
  | [], _ => none
  | s :: rest, prev =>
    let nh := hydrationQuery s
    if nh = [] then some [Ev.hydrationQuery nh]
    else
      match hydrationLoopTr rest nh with
      | none => none
      | some tr =>
        some (Ev.hydrationQuery nh ::
          ((if nh ≠ prev then [Ev.print (notHydratedLine nh)] else []) ++
           Ev.sleep 1 :: tr))

/-- Number of changes in a sequence of query results relative to a previous
value (the hydration loop prints exactly at these points). -/
def countChanges : List (List String) → List String → Nat
  | [], _ => 0
  | x :: rest, prev => (if x ≠ prev then 1 else 0) + countChanges rest x

/-- State of the lag introspection tables at one polling iteration.
`lag` is `mz_internal.mz_materialization_lag` as (object_id, global_lag),
with intervals in milliseconds and `none` for a NULL lag. -/
structure LagState where
  objects : List (Nat × String)
  lag : List (Nat × Option Nat)
  sinks : List Nat
  deriving DecidableEq, Repr

/-- `INTERVAL '10 seconds'` in milliseconds. -/
def lagThresholdMs : Nat := 10000

/-- `INTERVAL '999 hours'` in milliseconds (999 hours of 3600000 ms), the
COALESCE sentinel shown for a NULL lag. -/
def lagSentinelMs : Nat := 3596400000

/-- The ordering `ORDER BY l.global_lag DESC NULLS FIRST` on lag values:
a NULL lag sorts before everything, finite lags sort descending. -/
def lagBefore (a b : String × Option Nat) : Prop :=
  match a.2, b.2 with
  | none, _ => True
  | some _, none => False
  | some x, some y => y ≤ x

instance : DecidableRel lagBefore := fun a b => by
  unfold lagBefore
  cases a.2 <;> cases b.2 <;> simp <;> infer_instance

instance : IsTotal (String × Option Nat) lagBefore where
  total a b := by
    unfold lagBefore
    cases a.2 <;> cases b.2 <;> simp [Nat.le_total]

instance : IsTrans (String × Option Nat) lagBefore where
  trans a b c hab hbc := by
    rcases a with ⟨_, _ | x⟩ <;> rcases b with ⟨_, _ | y⟩ <;> rcases c with ⟨_, _ | z⟩ <;>
      simp_all [lagBefore]
    omega

/-- The lag filter of the freshness query's WHERE clause:
`l.global_lag IS NULL OR l.global_lag > INTERVAL '10 seconds'`. -/
def lagExceeds : Option Nat → Bool
  | none => true
  | some g => lagThresholdMs < g

/-- The WHERE clause of the freshness query applied to the joined tables
(executor.py lines 210-215): join `mz_materialization_lag` with `mz_objects`
on id, keep user objects (name not starting with the system prefix, id not a
sink) whose lag is NULL or exceeds the 10-second threshold. -/
def lagQualifying (s : LagState) : List (String × Option Nat) :=
  s.lag.flatMap (fun l =>
    s.objects.filterMap (fun o =>
      if o.1 = l.1 ∧ ¬(strStarts o.2 "mz_") ∧ o.1 ∉ s.sinks ∧ lagExceeds l.2 then
        some (o.2, l.2)
      else none))

/-- The ORDER BY ... LIMIT 5 part of the freshness query: qualifying rows
sorted descending by lag with NULLS FIRST, first five kept. -/
def freshnessTop (s : LagState) : List (String × Option Nat) :=
  (List.insertionSort lagBefore (lagQualifying s)).take 5

/-- The full freshness query (executor.py lines 206-218): the top rows with
the displayed lag, `COALESCE(l.global_lag, INTERVAL '999 hours')`. -/
def freshnessQuery (s : LagState) : List (String × Nat) :=
  (freshnessTop s).map (fun p => (p.1, p.2.getD lagSentinelMs))

/-- The "Lagging" progress line. -/
def laggingLine (res : List (String × Nat)) : String :=
  "  Lagging: " ++
    String.intercalate ", " (res.map (fun p => p.1 ++ " (" ++ toString p.2 ++ ")"))

/-- Trace of the freshness polling loop (executor.py lines 205-225), driven by
the oracle's sequence of table states; `none` models never converging within
the oracle's trace. -/
def freshnessLoopTr : List LagState → Option (List Ev)
  | [] => none
  | s :: rest =>
    let res := freshnessQuery s
    if res = [] then some [Ev.lagQuery res]
    else
      match freshnessLoopTr rest with
      | none => none
      | some tr =>
        some (Ev.lagQuery res :: Ev.print (laggingLine res) :: Ev.sleep 5 :: tr)

/-- The whole freshness wait (executor.py lines 203-226): print, one fixed
warm-up sleep of 10 time units, then the polling loop. -/
def freshnessWaitTr (states : List LagState) : Option (List Ev) :=
  (freshnessLoopTr states).map
    (fun tr => Ev.print "Waiting for freshness" :: Ev.sleep 10 :: tr)

/-- The `queries` / `ingestions` subtree of the statistics record.  `timings`
and `errors` are optional because the corresponding dictionary keys exist only
once query replay initializes them (executor.py lines 236-237); the error map
is an association list from message to occurrence contexts. -/
structure QStats where
  total : Nat
  failed : Nat
  slow : Nat
  timings : Option (List Nat)
  errors : Option (List (String × List String))
  deriving DecidableEq, Repr

/-- The `initial_data` subtree: resource samples and elapsed time. -/
structure InitStats where
  docker : List Nat
  time : Nat
  deriving DecidableEq, Repr

/-- The RunStats record returned by `test`; optional fields model dictionary
keys that may be absent. -/
structure Stats where
  queries : QStats
  ingestions : QStats
  object_creation : Option Nat
  initial_data : Option InitStats
  docker : Option (List Nat)
  deriving DecidableEq, Repr

/-- The statistics record as initialized at executor.py lines 109-112. -/
def initStats : Stats :=
  { queries := ⟨0, 0, 0, none, none⟩
    ingestions := ⟨0, 0, 0, none, none⟩
    object_creation := none
    initial_data := none
    docker := none }

/-- Uncaught errors a run can end with.  `hang` stands for an unbounded
polling loop that never converges within the oracle's trace (the Python run
would block forever rather than raise). -/
inductive TErr where
  | config (connType : String)
  | keyError (key : String)
  | threadError (msg : String)
  | hang
  deriving DecidableEq, Repr

/-- The flag parameters of `test`. -/
structure Flags where
  create_objects : Bool
  initial_data : Bool
  early_initial_data : Bool
  run_ingestions : Bool
  run_queries : Bool
  deriving DecidableEq, Repr

/-- Oracle environment for one `test` run: the workload (flat sequence of
connection type tags plus whether its query list is non-empty), the flags,
what the collaborators return (bulk loaders, per-iteration introspection
table states, number of ingestion threads created, terminal outcome of each
worker thread in start order, `none` meaning it returned normally), and
elapsed times reported by the clock. -/
structure Env where
  connections : List String
  queriesNonempty : Bool
  flags : Flags
  createdExternal : Bool
  createdMz : Bool
  initSamplerOutcome : Option String
  hydrStates : List HydrState
  lagStates : List LagState
  numIngestions : Nat
  threadOutcomes : List (Option String)
  runtime : Nat
  tObjCreate : Nat
  tObjPart2 : Nat
  tInitData : Nat
  deriving DecidableEq, Repr

/-- Joining a list of PropagatingThread handles in order (executor.py lines
270-271): each join waits for the thread, then re-raises its stored
exception if it raised.  The first re-raise aborts the `for` loop, so the
result is the number of threads actually joined together with the first
error, if any.  PropagatingThread itself is modelled from the spec: capture
the error at the unit boundary and have the join step re-raise it (the class
lives in `materialize.util`, outside the shown sources). -/
def joinAll : List (Option String) → Nat × Option String
  | [] => (0, none)
  | none :: rest => ((joinAll rest).1 + 1, (joinAll rest).2)
  | some e :: _ => (1, some e)

/-- The object-creation step (executor.py lines 113-118): part 1 always, part
2 only when initial data is not loaded early; records elapsed time under
`object_creation`. -/
def objectCreationStep (env : Env) (stats : Stats) : Stats :=
  if env.flags.create_objects then
    { stats with object_creation := some env.tObjCreate }
  else stats

/-- The initial-data step (executor.py lines 119-158), including the
`elif early_initial_data` branch.  The step starts a dedicated docker-stats
sampler thread scoped to this step; its `finally` sets the cancellation
signal, joins the sampler (re-raising its error, in which case the clear is
skipped), and clears the signal.  The early-initial-data branches accumulate
into `object_creation` with `+=`, which raises KeyError when that key was
never initialized. -/
def initialDataStep (env : Env) (stats : Stats) : List Ev × Except TErr Stats :=
  if env.flags.initial_data then
    let stats1 := { stats with initial_data := some ⟨[], 0⟩ }
    let body : Except TErr Stats :=
      match (if env.flags.early_initial_data then
               match stats1.object_creation with
               | none => Except.error (TErr.keyError "object_creation")
               | some v =>
                 Except.ok { stats1 with object_creation := some (v + env.tObjPart2) }
             else Except.ok stats1 : Except TErr Stats) with
      | Except.error e => Except.error e
      | Except.ok stats2 =>
        let created := (env.createdExternal || env.createdMz)
        let stats3 := { stats2 with initial_data := some ⟨[], env.tInitData⟩ }
        Except.ok (if created then stats3 else { stats3 with initial_data := none })
    let trHead := [Ev.print "Creating initial data", Ev.startThread "docker-stats-initial"]
    match env.initSamplerOutcome with
    | some e =>
      (trHead ++ [Ev.setStop, Ev.joinThread "docker-stats-initial"],
       Except.error (TErr.threadError e))
    | none =>
      (trHead ++ [Ev.setStop, Ev.joinThread "docker-stats-initial", Ev.clearStop], body)
  else if env.flags.early_initial_data then
    match stats.object_creation with
    | none => ([], Except.error (TErr.keyError "object_creation"))
    | some v => ([], Except.ok { stats with object_creation := some (v + env.tObjPart2) })
  else ([], Except.ok stats)

/-- Names of the worker threads created by the worker-pool phase, in start
order (executor.py lines 227-253): the ingestion threads returned by
`create_ingestions` when ingestion replay is requested, then the single
query thread when query replay is requested and the workload has queries. -/
def workerNames (env : Env) : List String :=
  (if env.flags.run_ingestions then
    (List.range env.numIngestions).map (fun i => "ingestion-" ++ toString i)
   else []) ++
  (if env.flags.run_queries && env.queriesNonempty then ["queries"] else [])

/-- Whether the worker-pool phase is entered (`if threads:`). -/
def workerEntered (env : Env) : Bool :=
  !(workerNames env).isEmpty

/-- All thread names of the worker-pool phase: the workers plus the
docker-stats sampler appended when the phase is entered. -/
def allThreadNames (env : Env) : List String :=
  workerNames env ++ ["docker-stats"]

/-- Terminal outcome of each worker-phase thread, aligned with
`allThreadNames`; threads beyond the oracle's list return normally. -/
def workerOutcomes (env : Env) : List (Option String) :=
  (List.range (allThreadNames env).length).map (fun i => env.threadOutcomes.getD i none)

/-- The worker-pool phase (executor.py lines 227-276): initialize the
query-replay timings/errors entries when query replay runs, enter the phase
only when any thread exists, otherwise print the skip notice.  When entered:
record a `docker` stats entry, start every thread, wait out the run window,
then unconditionally set the cancellation signal and join the threads in
order; the first failing join re-raises, abandoning the remaining joins. -/
def workerPhase (env : Env) (stats : Stats) : List Ev × Except TErr Stats :=
  let trIng := if env.flags.run_ingestions then
      [Ev.print "Starting continuous ingestions"] else []
  let statsQ := if env.flags.run_queries && env.queriesNonempty then
      { stats with queries := { stats.queries with timings := some [], errors := some [] } }
    else stats
  let trQ := if env.flags.run_queries && env.queriesNonempty then
      [Ev.print "Starting continuous queries"] else []
  if workerEntered env then
    let statsD := { statsQ with docker := some [] }
    let names := allThreadNames env
    let joined := joinAll (workerOutcomes env)
    let tr := trIng ++ trQ ++ names.map Ev.startThread ++
      [Ev.waitStop env.runtime, Ev.setStop] ++ (names.take joined.1).map Ev.joinThread
    match joined.2 with
    | some e => (tr, Except.error (TErr.threadError e))
    | none => (tr ++ [Ev.print "replay stats"], Except.ok statsD)
  else
    (trIng ++ trQ ++ [Ev.print "No continuous ingestions or queries defined, skipping phase"],
     Except.ok statsQ)

/-- The whole `test` run (executor.py lines 56-276): connection scan (raising
before any service is started), service startup, stats initialization, the
optional object-creation and initial-data steps, the unconditional hydration
and freshness waits, and the worker-pool phase. -/
def testRun (env : Env) : List Ev × Except TErr Stats :=
  match scanServices env.connections with
  | Except.error t => ([Ev.print "header"], Except.error (TErr.config t))
  | Except.ok services =>
    let tr0 := [Ev.print "header", Ev.print "Required services", Ev.up services,
                Ev.print "Console available"]
    let stats0 := objectCreationStep env initStats
    match initialDataStep env stats0 with
    | (tr1, Except.error e) => (tr0 ++ tr1, Except.error e)
    | (tr1, Except.ok stats1) =>
      match hydrationLoopTr env.hydrStates [] with
      | none => (tr0 ++ tr1 ++ [Ev.print "Waiting for hydration"], Except.error TErr.hang)
      | some trH =>
        match freshnessLoopTr env.lagStates with
        | none =>
          (tr0 ++ tr1 ++ [Ev.print "Waiting for hydration"] ++ trH ++
            [Ev.print "Hydration complete", Ev.print "Waiting for freshness", Ev.sleep 10],
           Except.error TErr.hang)
        | some trF =>
          let phase := workerPhase env stats1
          (tr0 ++ tr1 ++ [Ev.print "Waiting for hydration"] ++ trH ++
            [Ev.print "Hydration complete", Ev.print "Waiting for freshness", Ev.sleep 10] ++
            trF ++ [Ev.print "Freshness complete"] ++ phase.1,
           phase.2)

/-- A structured failure record (`TestFailureDetails`). -/
structure TestFailureDetails where
  message : String
  details : String
  scope : String
  deriving DecidableEq, Repr

/-- The allow-listed benign error pattern of the novel-error filter. -/
def uuidPattern : String := "invalid input syntax for type uuid"

/-- Substring containment test used for the `in` check on the pattern. -/
def containsSub (s pat : String) : Bool :=
  occursIn pat.data s.data

/-- The reported line for one novel error message with its occurrences. -/
def novelErrorLine (e : String) (occurrences : List String) : String :=
  e ++ " in queries: " ++ toString occurrences

/-- The novel-error collection loop of `benchmark` (executor.py lines
398-405): for each (message, occurrences) of the candidate's query-error map
in order, skip it when the message is a key of the reference's map or when it
contains the allow-listed UUID pattern, otherwise record one line. -/
def novelErrorLines (oldE newE : List (String × List String)) : List String :=
  newE.filterMap (fun p =>
    if oldE.any (fun q => q.1 = p.1) then none
    else if containsSub p.1 uuidPattern then none
    else some (novelErrorLine p.1 p.2))

/-- The comparison tail of `benchmark` (executor.py lines 394-413): collect
the tabular-diff failures, then, only when the reference run's `queries`
stats contain an `errors` map, append one aggregate failure record carrying
every novel error line (if any); reading the candidate's map raises KeyError
when it is absent while the reference's is present. -/
def benchmarkFailures (tableDiff : List TestFailureDetails)
    (statsOld statsNew : Stats) (filename : String) :
    Except TErr (List TestFailureDetails) :=
  match statsOld.queries.errors with
  | none => Except.ok tableDiff
  | some oldE =>
    match statsNew.queries.errors with
    | none => Except.error (TErr.keyError "errors")
    | some newE =>
      let lines := novelErrorLines oldE newE
      Except.ok (tableDiff ++
        (if lines = [] then []
         else [⟨"Workload " ++ filename ++ " has new errors",
               String.intercalate "\n" lines, filename⟩]))

/-- The final verdict of `benchmark` (executor.py lines 415-416): raise one
aggregate `FailedTestExecutionError` carrying all collected failure records
exactly when at least one was produced. -/
def benchmarkVerdict (tableDiff : List TestFailureDetails)
    (statsOld statsNew : Stats) (filename : String) :
    Except (TErr ⊕ List TestFailureDetails) Unit :=
  match benchmarkFailures tableDiff statsOld statsNew filename with
  | Except.error e => Except.error (Sum.inl e)
  | Except.ok failures =>
    if failures = [] then Except.ok () else Except.error (Sum.inr failures)

/-- Whether an event is a hydration query. -/
def Ev.isHydrationQuery : Ev → Bool
  | Ev.hydrationQuery _ => true
  | _ => false

/-- Whether an event is a lag query. -/
def Ev.isLagQuery : Ev → Bool
  | Ev.lagQuery _ => true
  | _ => false

/-- Whether an event is a progress print. -/
def Ev.isPrint : Ev → Bool
  | Ev.print _ => true
  | _ => false

/-- Whether an event is a thread start. -/
def Ev.isStart : Ev → Bool
  | Ev.startThread _ => true
  | _ => false

/-- `Except.ok`-ness as a Boolean. -/
def exceptOk {ε α : Type _} : Except ε α → Bool
  | Except.ok _ => true
  | Except.error _ => false

/-! ### Concrete example environments used by witnesses and counterexamples -/

/-- Environment with an unrecognized connection type. -/
def envC6bad : Env :=
  { connections := ["postgres", "bogus"], queriesNonempty := false,
    flags := ⟨false, false, false, false, false⟩,
    createdExternal := false, createdMz := false, initSamplerOutcome := none,
    hydrStates := [], lagStates := [], numIngestions := 0, threadOutcomes := [],
    runtime := 0, tObjCreate := 0, tObjPart2 := 0, tInitData := 0 }

/-- Environment whose connection types are all recognized. -/
def envC6good : Env :=
  { envC6bad with connections := ["postgres", "kafka", "aws"] }

/-- Environment exhibiting the C9 flag combination. -/
def envC9 : Env :=
  { connections := ["mysql"], queriesNonempty := true,
    flags := ⟨false, true, true, false, true⟩,
    createdExternal := true, createdMz := false, initSamplerOutcome := none,
    hydrStates := [], lagStates := [], numIngestions := 0, threadOutcomes := [],
    runtime := 5, tObjCreate := 1, tObjPart2 := 1, tInitData := 1 }

/-- Environment for the C7 witness: initial-data step enabled, nothing
created by either bulk loader. -/
def envC7 : Env :=
  { connections := ["postgres"], queriesNonempty := true,
    flags := ⟨true, true, false, false, false⟩,
    createdExternal := false, createdMz := false, initSamplerOutcome := none,
    hydrStates := [⟨[], [], [], []⟩], lagStates := [⟨[], [], []⟩],
    numIngestions := 0, threadOutcomes := [], runtime := 5,
    tObjCreate := 1, tObjPart2 := 1, tInitData := 1 }

/-- Reference error map for the C5 witness. -/
def exOldErrors : List (String × List String) := [("E1", ["q1"])]

/-- Candidate error map for the C5 witness: one shared error, one novel
error, one allow-listed UUID error. -/
def exNewErrors : List (String × List String) :=
  [("E1", ["q1"]), ("E2", ["q2"]),
   ("invalid input syntax for type uuid: found V", ["q3"])]

/-- Stats whose query subtree carries an error map. -/
def statsWithErrors (e : List (String × List String)) : Stats :=
  { initStats with queries := { initStats.queries with errors := some e } }

/-- Environment for the C1 counterexample: a single query worker that raises,
with the docker-stats sampler as its sibling. -/
def envC1 : Env :=
  { connections := [], queriesNonempty := true,
    flags := ⟨false, false, false, false, true⟩,
    createdExternal := false, createdMz := false, initSamplerOutcome := none,
    hydrStates := [⟨[], [], [], []⟩], lagStates := [⟨[], [], []⟩],
    numIngestions := 0, threadOutcomes := [some "boom"], runtime := 5,
    tObjCreate := 0, tObjPart2 := 0, tInitData := 0 }

/-- Environment for the C2 counterexample: a run with the initial-data step
and the query worker both enabled, which completes normally. -/
def envC2 : Env :=
  { connections := ["postgres"], queriesNonempty := true,
    flags := ⟨true, true, false, false, true⟩,
    createdExternal := true, createdMz := false, initSamplerOutcome := none,
    hydrStates := [⟨[], [], [], []⟩], lagStates := [⟨[], [], []⟩],
    numIngestions := 0, threadOutcomes := [], runtime := 30,
    tObjCreate := 3, tObjPart2 := 2, tInitData := 7 }

/-- Environment for the C8 counterexample: `run_ingestions=False`,
`run_queries=False` combined with `create_objects=False`,
`early_initial_data=True`. -/
def envC8 : Env :=
  { connections := ["postgres"], queriesNonempty := false,
    flags := ⟨false, false, true, false, false⟩,
    createdExternal := false, createdMz := false, initSamplerOutcome := none,
    hydrStates := [⟨[], [], [], []⟩], lagStates := [⟨[], [], []⟩],
    numIngestions := 0, threadOutcomes := [], runtime := 5,
    tObjCreate := 0, tObjPart2 := 0, tInitData := 0 }

/-- Environment for the C8 witness: both run flags off, a run that completes. -/
def envC8ok : Env :=
  { envC8 with flags := ⟨true, true, false, false, false⟩, createdExternal := true }

/-- Hydration table state whose query returns the single object "a". -/
def hydrStateA : HydrState := ⟨[(1, "a")], [(1, false)], [], []⟩

/-- The three-iteration scenario of the spec: not hydrated twice, then done. -/
def hydrScenario : List HydrState := [hydrStateA, hydrStateA, ⟨[], [], [], []⟩]

/-- Lag table state of the spec scenario: object "a" with NULL lag, object
"b" with a 20-second lag. -/
def lagStateAB : LagState :=
  ⟨[(1, "a"), (2, "b")], [(1, none), (2, some 20000)], []⟩

/-- The two-iteration freshness scenario: one lagging poll, then fresh. -/
def lagScenario : List LagState := [lagStateAB, ⟨[], [], []⟩]

theorem exceptOk_iff {ε α : Type _} (e : Except ε α) :
    exceptOk e = true ↔ ∃ a, e = Except.ok a := by
  cases e <;> simp [exceptOk]

/-! ### Connection scan lemmas -/

theorem connServices_eq_none_iff (t : String) :
    connServices t = none ↔ t ∉ knownConnectionTypes := by
  unfold connServices knownConnectionTypes
  split_ifs with h1 h2 h3 h4 h5 h6 h7 h8 <;> simp_all
  tauto

theorem scanServicesAux_ok (conns : List String) :
    ∀ acc, (∀ t ∈ conns, t ∈ knownConnectionTypes) →
      ∃ svs, scanServicesAux acc conns = Except.ok svs := by
  induction conns with
  | nil => intro acc _; exact ⟨acc, rfl⟩
  | cons t rest ih =>
    intro acc h
    have ht : t ∈ knownConnectionTypes := h t (List.mem_cons_self t rest)
    have : connServices t ≠ none := by
      rw [Ne, connServices_eq_none_iff]; simpa using ht
    rcases Option.ne_none_iff_exists'.mp this with ⟨svs, hsvs⟩
    simp only [scanServicesAux, hsvs]
    exact ih _ (fun u hu => h u (List.mem_cons_of_mem t hu))

theorem scanServicesAux_error (conns : List String) :
    ∀ acc, (∃ t ∈ conns, t ∉ knownConnectionTypes) →
      ∃ m, scanServicesAux acc conns = Except.error m ∧ m ∉ knownConnectionTypes := by
  induction conns with
  | nil => intro acc h; simp at h
  | cons t rest ih =>
    intro acc h
    by_cases ht : t ∈ knownConnectionTypes
    · have : connServices t ≠ none := by
        rw [Ne, connServices_eq_none_iff]; simpa using ht
      rcases Option.ne_none_iff_exists'.mp this with ⟨svs, hsvs⟩
      simp only [scanServicesAux, hsvs]
      apply ih
      rcases h with ⟨u, hu, hnot⟩
      rcases List.mem_cons.mp hu with rfl | hu'
      · exact absurd ht hnot
      · exact ⟨u, hu', hnot⟩
    · have : connServices t = none := (connServices_eq_none_iff t).mpr ht
      exact ⟨t, by simp [scanServicesAux, this], ht⟩

/-- C6: a workload containing a connection whose type tag is outside the
closed set raises a configuration error before any service is started (no
`up` event appears in the trace); when every connection type belongs to the
set, the connection-scan step raises no error. -/
theorem connection_scan_validates (env : Env) :
    ((∃ t ∈ env.connections, t ∉ knownConnectionTypes) →
      (∃ m, (testRun env).2 = Except.error (TErr.config m)) ∧
      ∀ svs, Ev.up svs ∉ (testRun env).1) ∧
    ((∀ t ∈ env.connections, t ∈ knownConnectionTypes) →
      ∃ svs, scanServices env.connections = Except.ok svs) := by
  constructor
  · intro h
    rcases scanServicesAux_error env.connections [] h with ⟨m, hm, _⟩
    have hscan : scanServices env.connections = Except.error m := hm
    constructor
    · exact ⟨m, by simp [testRun, hscan]⟩
    · intro svs
      simp [testRun, hscan]
  · intro h
    exact scanServicesAux_ok env.connections [] h

theorem connection_scan_validates_witness :
    ((∃ m, (testRun envC6bad).2 = Except.error (TErr.config m)) ∧
      ∀ svs, Ev.up svs ∉ (testRun envC6bad).1) ∧
    (∃ svs, scanServices envC6good.connections = Except.ok svs) :=
  ⟨(connection_scan_validates envC6bad).1 ⟨"bogus", by decide, by decide⟩,
   (connection_scan_validates envC6good).2 (by decide)⟩

/-! ### Worker-pool join lemmas -/

theorem joinAll_of_all_none (l : List (Option String)) (h : ∀ o ∈ l, o = none) :
    joinAll l = (l.length, none) := by
  induction l with
  | nil => rfl
  | cons o rest ih =>
    have ho : o = none := h o (List.mem_cons_self o rest)
    subst ho
    have := ih (fun o ho => h o (List.mem_cons_of_mem _ ho))
    simp [joinAll, this]

theorem getD_none_of_all_none (l : List (Option String)) (h : ∀ o ∈ l, o = none) :
    ∀ i, l.getD i none = none := by
  induction l with
  | nil => intro i; simp [List.getD]
  | cons o rest ih =>
    intro i
    cases i with
    | zero => simpa [List.getD] using h o (List.mem_cons_self o rest)
    | succ j =>
      simpa [List.getD] using ih (fun o ho => h o (List.mem_cons_of_mem _ ho)) j

theorem workerOutcomes_all_none (env : Env) (h : ∀ o ∈ env.threadOutcomes, o = none) :
    ∀ o ∈ workerOutcomes env, o = none := by
  intro o ho
  rcases List.mem_map.mp ho with ⟨i, _, rfl⟩
  exact getD_none_of_all_none _ h i

theorem workerPhase_ok (env : Env) (stats : Stats)
    (h : ∀ o ∈ env.threadOutcomes, o = none) :
    ∃ stats2, (workerPhase env stats).2 = Except.ok stats2 ∧
      stats2.initial_data = stats.initial_data ∧
      stats2.object_creation = stats.object_creation ∧
      stats2.ingestions = stats.ingestions := by
  have hjoin : joinAll (workerOutcomes env) = ((workerOutcomes env).length, none) :=
    joinAll_of_all_none _ (workerOutcomes_all_none env h)
  unfold workerPhase
  rcases hwe : workerEntered env <;> simp [hwe, hjoin]
  · split <;> simp
  · constructor <;> split <;> simp

/-- C9: any invocation of `test` with `create_objects=False` and
`early_initial_data=True` (whatever `initial_data` is) raises an uncaught
KeyError on the `object_creation` stats entry, because both early-initial-data
paths accumulate into that entry with `+=` while only `create_objects=True`
initializes it.  Hypotheses restrict the run to ones that reach this point:
valid connection types and a non-raising initial-data sampler. -/
theorem early_initial_data_keyerror (env : Env)
    (hco : env.flags.create_objects = false)
    (hei : env.flags.early_initial_data = true)
    (hscan : ∀ t ∈ env.connections, t ∈ knownConnectionTypes)
    (hsamp : env.initSamplerOutcome = none) :
    (testRun env).2 = Except.error (TErr.keyError "object_creation") := by
  rcases scanServicesAux_ok env.connections [] hscan with ⟨svs, hsvs⟩
  have hscan' : scanServices env.connections = Except.ok svs := hsvs
  have hobj : (objectCreationStep env initStats).object_creation = none := by
    simp [objectCreationStep, hco, initStats]
  rcases hid : env.flags.initial_data
  · have : initialDataStep env (objectCreationStep env initStats) =
        ([], Except.error (TErr.keyError "object_creation")) := by
      simp only [initialDataStep, hid, hei, hobj]
      rfl
    simp [testRun, hscan', this]
  · have : (initialDataStep env (objectCreationStep env initStats)).2 =
        Except.error (TErr.keyError "object_creation") := by
      simp only [initialDataStep, hid, hei, hsamp, hobj]
      rfl
    rcases hstep : initialDataStep env (objectCreationStep env initStats) with ⟨tr1, res⟩
    rw [hstep] at this
    simp at this
    subst this
    simp [testRun, hscan', hstep]

theorem early_initial_data_keyerror_witness :
    (testRun envC9).2 = Except.error (TErr.keyError "object_creation") :=
  early_initial_data_keyerror envC9 rfl rfl (by decide) rfl

theorem initialDataStep_ok (env : Env) (stats : Stats)
    (hid : env.flags.initial_data = true)
    (hsamp : env.initSamplerOutcome = none)
    (hobj : env.flags.early_initial_data = true → stats.object_creation ≠ none) :
    ∃ stats1, (initialDataStep env stats).2 = Except.ok stats1 ∧
      (stats1.initial_data.isSome ↔ (env.createdExternal || env.createdMz) = true) ∧
      stats1.queries = stats.queries ∧ stats1.ingestions = stats.ingestions := by
  unfold initialDataStep
  rcases hei : env.flags.early_initial_data
  · simp only [hid, hsamp, hei]
    rcases hc : (env.createdExternal || env.createdMz) <;> simp [hc]
  · have := hobj hei
    rcases ho : stats.object_creation with _ | v
    · exact absurd ho this
    · simp only [hid, hsamp, hei, ho]
      rcases hc : (env.createdExternal || env.createdMz) <;> simp [hc]

/-- C7: with the initial-data step enabled, the `initial_data` entry is
present in the returned RunStats if and only if one of the two bulk loaders
actually created data; when neither did, the entry is removed entirely.
Hypotheses restrict to runs that complete: recognized connection types, no
KeyError flag combination, non-raising sampler and workers, and converging
hydration and freshness waits. -/
theorem initial_data_presence (env : Env)
    (hid : env.flags.initial_data = true)
    (hbug : env.flags.early_initial_data = true → env.flags.create_objects = true)
    (hscan : ∀ t ∈ env.connections, t ∈ knownConnectionTypes)
    (hsamp : env.initSamplerOutcome = none)
    (hhyd : (hydrationLoopTr env.hydrStates []).isSome = true)
    (hfresh : (freshnessLoopTr env.lagStates).isSome = true)
    (hthreads : ∀ o ∈ env.threadOutcomes, o = none) :
    ∃ stats, (testRun env).2 = Except.ok stats ∧
      (stats.initial_data.isSome ↔ (env.createdExternal || env.createdMz) = true) := by
  rcases scanServicesAux_ok env.connections [] hscan with ⟨svs, hsvs⟩
  have hscan' : scanServices env.connections = Except.ok svs := hsvs
  have hobj : env.flags.early_initial_data = true →
      (objectCreationStep env initStats).object_creation ≠ none := by
    intro hei
    simp [objectCreationStep, hbug hei, initStats]
  rcases initialDataStep_ok env (objectCreationStep env initStats) hid hsamp hobj with
    ⟨stats1, hres, hpresent, _, _⟩
  rcases hstep : initialDataStep env (objectCreationStep env initStats) with ⟨tr1, res⟩
  rw [hstep] at hres
  simp at hres
  subst hres
  rcases Option.isSome_iff_exists.mp hhyd with ⟨trH, htrH⟩
  rcases Option.isSome_iff_exists.mp hfresh with ⟨trF, htrF⟩
  rcases workerPhase_ok env stats1 hthreads with ⟨stats2, hph, hinit, _, _⟩
  refine ⟨stats2, ?_, ?_⟩
  · simp [testRun, hscan', hstep, htrH, htrF, hph]
  · rw [hinit]
    exact hpresent

theorem initial_data_presence_witness :
    ∃ stats, (testRun envC7).2 = Except.ok stats ∧
      (stats.initial_data.isSome ↔ (envC7.createdExternal || envC7.createdMz) = true) :=
  initial_data_presence envC7 rfl (by decide) (by decide) rfl (by decide) (by decide)
    (by decide)

/-! ### Benchmark comparator lemmas -/

theorem novelErrorLines_length (oldE newE : List (String × List String)) :
    (novelErrorLines oldE newE).length =
      newE.countP (fun p =>
        !(oldE.any (fun q => q.1 = p.1)) && !(containsSub p.1 uuidPattern)) := by
  induction newE with
  | nil => rfl
  | cons p rest ih =>
    simp only [novelErrorLines, List.filterMap_cons, List.countP_cons] at *
    by_cases h1 : oldE.any (fun q => q.1 = p.1) <;>
      by_cases h2 : containsSub p.1 uuidPattern <;>
        simp [h1, h2, ih]

theorem novelErrorLines_mem (oldE newE : List (String × List String)) (line : String) :
    line ∈ novelErrorLines oldE newE ↔
      ∃ p ∈ newE, p.1 ∉ oldE.map Prod.fst ∧ containsSub p.1 uuidPattern = false ∧
        line = novelErrorLine p.1 p.2 := by
  unfold novelErrorLines
  rw [List.mem_filterMap]
  constructor
  · rintro ⟨p, hp, hf⟩
    by_cases h1 : oldE.any (fun q => q.1 = p.1) <;>
      by_cases h2 : containsSub p.1 uuidPattern <;> simp [h1, h2] at hf
    refine ⟨p, hp, ?_, by simpa using h2, hf.symm⟩
    intro hmem
    rcases List.mem_map.mp hmem with ⟨q, hq, hq1⟩
    exact h1 (List.any_eq_true.mpr ⟨q, hq, by simpa using hq1⟩)
  · rintro ⟨p, hp, hnot, huuid, rfl⟩
    refine ⟨p, hp, ?_⟩
    have h1 : oldE.any (fun q => q.1 = p.1) = false := by
      rw [List.any_eq_false]
      intro q hq
      simp only [decide_eq_true_eq]
      intro hq1
      exact hnot (List.mem_map.mpr ⟨q, hq, hq1⟩)
    simp [h1, huuid]

/-- C5: when both runs recorded a query-error map, the comparator reports one
regression record for every error message of the candidate's map that is
absent from the reference's, unless the message matches the allow-listed
malformed-UUID pattern; and it raises a single aggregate error carrying all
collected failure records (tabular diff and novel-error filter together) if
and only if at least one failure record was produced. -/
theorem benchmark_novel_errors (tableDiff : List TestFailureDetails)
    (statsOld statsNew : Stats) (filename : String)
    (oldE newE : List (String × List String))
    (hold : statsOld.queries.errors = some oldE)
    (hnew : statsNew.queries.errors = some newE) :
    ((novelErrorLines oldE newE).length =
      newE.countP (fun p =>
        !(oldE.any (fun q => q.1 = p.1)) && !(containsSub p.1 uuidPattern))) ∧
    (∀ line, line ∈ novelErrorLines oldE newE ↔
      ∃ p ∈ newE, p.1 ∉ oldE.map Prod.fst ∧ containsSub p.1 uuidPattern = false ∧
        line = novelErrorLine p.1 p.2) ∧
    (∃ failures, benchmarkFailures tableDiff statsOld statsNew filename =
        Except.ok failures ∧
      (∀ d ∈ tableDiff, d ∈ failures) ∧
      (novelErrorLines oldE newE ≠ [] →
        (⟨"Workload " ++ filename ++ " has new errors",
          String.intercalate "\n" (novelErrorLines oldE newE), filename⟩ :
            TestFailureDetails) ∈ failures) ∧
      (benchmarkVerdict tableDiff statsOld statsNew filename =
          Except.error (Sum.inr failures) ↔ failures ≠ []) ∧
      (failures = [] ↔ tableDiff = [] ∧ novelErrorLines oldE newE = [])) := by
  refine ⟨novelErrorLines_length oldE newE, novelErrorLines_mem oldE newE, ?_⟩
  refine ⟨tableDiff ++
    (if novelErrorLines oldE newE = [] then []
     else [⟨"Workload " ++ filename ++ " has new errors",
           String.intercalate "\n" (novelErrorLines oldE newE), filename⟩]), ?_, ?_, ?_, ?_, ?_⟩
  · simp [benchmarkFailures, hold, hnew]
  · intro d hd; exact List.mem_append_left _ hd
  · intro hne
    apply List.mem_append_right
    simp [hne]
  · rw [benchmarkVerdict]
    simp only [benchmarkFailures, hold, hnew]
    split <;> simp_all
  · rcases h : novelErrorLines oldE newE <;> simp [h]

theorem benchmark_novel_errors_witness :
    (∃ failures,
      benchmarkFailures [] (statsWithErrors exOldErrors) (statsWithErrors exNewErrors)
          "w.yml" = Except.ok failures ∧
      (∀ d ∈ ([] : List TestFailureDetails), d ∈ failures) ∧
      (novelErrorLines exOldErrors exNewErrors ≠ [] →
        (⟨"Workload " ++ "w.yml" ++ " has new errors",
          String.intercalate "\n" (novelErrorLines exOldErrors exNewErrors), "w.yml"⟩ :
            TestFailureDetails) ∈ failures) ∧
      (benchmarkVerdict [] (statsWithErrors exOldErrors) (statsWithErrors exNewErrors)
          "w.yml" = Except.error (Sum.inr failures) ↔ failures ≠ []) ∧
      (failures = [] ↔ ([] : List TestFailureDetails) = [] ∧
        novelErrorLines exOldErrors exNewErrors = [])) ∧
    novelErrorLines exOldErrors exNewErrors = ["E2 in queries: [q2]"] :=
  ⟨(benchmark_novel_errors [] (statsWithErrors exOldErrors) (statsWithErrors exNewErrors)
      "w.yml" exOldErrors exNewErrors rfl rfl).2.2,
   by decide⟩

/-- C10: the novel-error filter runs only when the reference run's `queries`
stats contain an `errors` map; without it, candidate-only errors are ignored
and no novel-error failure record is produced, whatever the candidate's map
holds. -/
theorem novel_errors_need_reference_map (tableDiff : List TestFailureDetails)
    (statsOld statsNew : Stats) (filename : String)
    (h : statsOld.queries.errors = none) :
    benchmarkFailures tableDiff statsOld statsNew filename = Except.ok tableDiff ∧
    (benchmarkVerdict tableDiff statsOld statsNew filename = Except.ok () ↔
      tableDiff = []) := by
  constructor
  · simp [benchmarkFailures, h]
  · rw [benchmarkVerdict]
    simp only [benchmarkFailures, h]
    split <;> simp_all

theorem novel_errors_need_reference_map_witness :
    benchmarkFailures [] initStats (statsWithErrors exNewErrors) "w.yml" =
      Except.ok [] ∧
    (benchmarkVerdict [] initStats (statsWithErrors exNewErrors) "w.yml" =
      Except.ok () ↔ ([] : List TestFailureDetails) = []) :=
  novel_errors_need_reference_map [] initStats (statsWithErrors exNewErrors) "w.yml" rfl

/-! ### Join-order lemmas (C1) -/

theorem joinAll_err (l : List (Option String)) : (joinAll l).2 = l.findSome? id := by
  induction l with
  | nil => rfl
  | cons o rest ih => cases o <;> simp [joinAll, List.findSome?_cons, ih]

theorem joinAll_count (l : List (Option String)) :
    (joinAll l).1 = (match l.findIdx? Option.isSome with
      | none => l.length
      | some i => i + 1) := by
  induction l with
  | nil => rfl
  | cons o rest ih =>
    cases o with
    | none =>
      have hj : (joinAll (none :: rest)).1 = (joinAll rest).1 + 1 := rfl
      rw [hj, ih, List.findIdx?_cons]
      rcases hf : rest.findIdx? Option.isSome with _ | i <;> simp [hf]
    | some e => simp [joinAll, List.findIdx?_cons]

theorem joinAll_fst_le (l : List (Option String)) : (joinAll l).1 ≤ l.length := by
  induction l with
  | nil => exact Nat.le_refl 0
  | cons o rest ih =>
    cases o <;> simp [joinAll]
    omega

theorem workerOutcomes_length (env : Env) :
    (workerOutcomes env).length = (allThreadNames env).length := by
  simp [workerOutcomes]

theorem workerPhase_join_structure (env : Env) (stats : Stats)
    (h : workerEntered env = true) :
    ∃ pre post, (workerPhase env stats).1 = pre ++ Ev.setStop :: post ∧
      (∀ ev ∈ pre, ev.isJoin = false) ∧
      post.countP Ev.isJoin = (joinAll (workerOutcomes env)).1 ∧
      (∀ e, (workerPhase env stats).2 = Except.error (TErr.threadError e) ↔
        (workerOutcomes env).findSome? id = some e) := by
  have hk : (joinAll (workerOutcomes env)).1 ≤ (allThreadNames env).length := by
    rw [← workerOutcomes_length]
    exact joinAll_fst_le _
  have hjoins : (((allThreadNames env).map Ev.joinThread).take
      (joinAll (workerOutcomes env)).1).countP Ev.isJoin =
      (joinAll (workerOutcomes env)).1 := by
    have hall : ∀ ev ∈ ((allThreadNames env).map Ev.joinThread).take
        (joinAll (workerOutcomes env)).1, Ev.isJoin ev = true := by
      intro ev hev
      rcases List.mem_map.mp (List.mem_of_mem_take hev) with ⟨n, _, rfl⟩
      rfl
    rw [List.countP_eq_length.mpr hall, List.length_take, List.length_map]
    omega
  have hpre : ∀ ev ∈ (if env.flags.run_ingestions then
        [Ev.print "Starting continuous ingestions"] else []) ++
      (if env.flags.run_queries && env.queriesNonempty then
        [Ev.print "Starting continuous queries"] else []) ++
      (allThreadNames env).map Ev.startThread ++ [Ev.waitStop env.runtime],
      ev.isJoin = false := by
    intro ev hev
    simp only [List.mem_append, List.mem_map] at hev
    rcases hev with ((h1 | h2) | h3) | h4
    · split at h1 <;> simp_all [Ev.isJoin]
    · split at h2 <;> simp_all [Ev.isJoin]
    · rcases h3 with ⟨n, _, rfl⟩; rfl
    · simp at h4; subst h4; rfl
  rcases herr : (joinAll (workerOutcomes env)).2 with _ | e
  · refine ⟨_, ((allThreadNames env).map Ev.joinThread).take
        (joinAll (workerOutcomes env)).1 ++ [Ev.print "replay stats"], ?_, hpre, ?_, ?_⟩
    · simp only [workerPhase, h, if_true, herr]
      simp
    · rw [List.countP_append, hjoins]
      simp [List.countP_cons, Ev.isJoin]
    · intro e
      simp only [workerPhase, h, if_true, herr]
      rw [joinAll_err] at herr
      simp [herr]
  · refine ⟨_, ((allThreadNames env).map Ev.joinThread).take
        (joinAll (workerOutcomes env)).1, ?_, hpre, hjoins, ?_⟩
    · simp only [workerPhase, h, if_true, herr]
      simp
    · intro e'
      simp only [workerPhase, h, if_true, herr]
      rw [joinAll_err] at herr
      simp [herr]

theorem join_abandons_sibling :
    (testRun envC1).2 = Except.error (TErr.threadError "boom") ∧
    Ev.startThread "docker-stats" ∈ (testRun envC1).1 ∧
    Ev.setStop ∈ (testRun envC1).1 ∧
    Ev.joinThread "docker-stats" ∉ (testRun envC1).1 := by decide

/-- C1 (amended): a worker unit's unrecoverable error surfaces to the
orchestrator at join time — the join step's error is exactly the first
error among the units in join order, never silently swallowed — and the
cancellation signal is set before any join; the units are joined in start
order up to and including the first failing one, after which the re-raise
aborts the join loop, so siblings later in join order are not joined. -/
theorem worker_join_propagation (outcomes : List (Option String)) (env : Env)
    (stats : Stats) (h : workerEntered env = true) :
    ((joinAll outcomes).2 = outcomes.findSome? id) ∧
    ((joinAll outcomes).1 = (match outcomes.findIdx? Option.isSome with
       | none => outcomes.length
       | some i => i + 1)) ∧
    (∃ pre post, (workerPhase env stats).1 = pre ++ Ev.setStop :: post ∧
      (∀ ev ∈ pre, ev.isJoin = false) ∧
      post.countP Ev.isJoin = (joinAll (workerOutcomes env)).1 ∧
      (∀ e, (workerPhase env stats).2 = Except.error (TErr.threadError e) ↔
        (workerOutcomes env).findSome? id = some e)) :=
  ⟨joinAll_err outcomes, joinAll_count outcomes,
   workerPhase_join_structure env stats h⟩

theorem worker_join_propagation_witness :
    ((joinAll [some "boom", none]).2 = [some "boom", none].findSome? id) ∧
    ((joinAll [some "boom", none]).1 =
      (match [some "boom", none].findIdx? Option.isSome with
       | none => [some "boom", (none : Option String)].length
       | some i => i + 1)) ∧
    (∃ pre post, (workerPhase envC1 initStats).1 = pre ++ Ev.setStop :: post ∧
      (∀ ev ∈ pre, ev.isJoin = false) ∧
      post.countP Ev.isJoin = (joinAll (workerOutcomes envC1)).1 ∧
      (∀ e, (workerPhase envC1 initStats).2 = Except.error (TErr.threadError e) ↔
        (workerOutcomes envC1).findSome? id = some e)) :=
  worker_join_propagation [some "boom", none] envC1 initStats (by decide)

/-! ### Polling-loop event shapes -/

theorem hydrationLoopTr_events (states : List HydrState) :
    ∀ prev tr, hydrationLoopTr states prev = some tr →
      ∀ ev ∈ tr, (∃ t ∈ states, ev = Ev.hydrationQuery (hydrationQuery t)) ∨
        Ev.isPrint ev = true ∨ ev = Ev.sleep 1 := by
  induction states with
  | nil => intro prev tr h; simp [hydrationLoopTr] at h
  | cons s rest ih =>
    intro prev tr h ev hev
    by_cases hnh : hydrationQuery s = []
    · simp only [hydrationLoopTr, hnh, if_pos rfl] at h
      simp [hnh] at h
      subst h
      simp at hev
      subst hev
      exact Or.inl ⟨s, List.mem_cons_self s rest, by rw [hnh]⟩
    · simp only [hydrationLoopTr, if_neg hnh] at h
      rcases hrec : hydrationLoopTr rest (hydrationQuery s) with _ | tr'
      · rw [hrec] at h; simp at h
      · rw [hrec] at h
        rw [Option.some_inj] at h
        subst h
        have htail : ∀ ev, ev ∈ tr' →
            (∃ t ∈ s :: rest, ev = Ev.hydrationQuery (hydrationQuery t)) ∨
            Ev.isPrint ev = true ∨ ev = Ev.sleep 1 := by
          intro ev hev
          rcases ih (hydrationQuery s) tr' hrec ev hev with ⟨t, ht, rfl⟩ | hp | hs
          · exact Or.inl ⟨t, List.mem_cons_of_mem s ht, rfl⟩
          · exact Or.inr (Or.inl hp)
          · exact Or.inr (Or.inr hs)
        by_cases hch : hydrationQuery s ≠ prev
        · rw [if_pos hch] at hev
          simp only [List.mem_cons, List.singleton_append] at hev
          rcases hev with rfl | rfl | rfl | hev
          · exact Or.inl ⟨s, List.mem_cons_self s rest, rfl⟩
          · exact Or.inr (Or.inl rfl)
          · exact Or.inr (Or.inr rfl)
          · exact htail ev hev
        · rw [if_neg hch] at hev
          simp only [List.mem_cons, List.nil_append] at hev
          rcases hev with rfl | rfl | hev
          · exact Or.inl ⟨s, List.mem_cons_self s rest, rfl⟩
          · exact Or.inr (Or.inr rfl)
          · exact htail ev hev

theorem freshnessLoopTr_events (states : List LagState) :
    ∀ tr, freshnessLoopTr states = some tr →
      ∀ ev ∈ tr, (∃ t ∈ states, ev = Ev.lagQuery (freshnessQuery t)) ∨
        Ev.isPrint ev = true ∨ ev = Ev.sleep 5 := by
  induction states with
  | nil => intro tr h; simp [freshnessLoopTr] at h
  | cons s rest ih =>
    intro tr h ev hev
    by_cases hr : freshnessQuery s = []
    · simp only [freshnessLoopTr, if_pos hr] at h
      simp [hr] at h
      subst h
      simp at hev
      subst hev
      exact Or.inl ⟨s, List.mem_cons_self s rest, by rw [hr]⟩
    · simp only [freshnessLoopTr, if_neg hr] at h
      rcases hrec : freshnessLoopTr rest with _ | tr'
      · rw [hrec] at h; simp at h
      · rw [hrec] at h
        simp at h
        subst h
        simp only [List.mem_cons] at hev
        rcases hev with rfl | rfl | rfl | hev
        · exact Or.inl ⟨s, List.mem_cons_self s rest, rfl⟩
        · exact Or.inr (Or.inl rfl)
        · exact Or.inr (Or.inr rfl)
        · rcases ih tr' hrec ev hev with ⟨t, ht, rfl⟩ | hp | hs
          · exact Or.inl ⟨t, List.mem_cons_of_mem s ht, rfl⟩
          · exact Or.inr (Or.inl hp)
          · exact Or.inr (Or.inr hs)

theorem hydrationLoopTr_no_stop (states : List HydrState) (prev : List String)
    (tr : List Ev) (h : hydrationLoopTr states prev = some tr) :
    tr.count Ev.setStop = 0 ∧ tr.count Ev.clearStop = 0 := by
  constructor <;>
    · rw [List.count_eq_zero]
      intro hmem
      rcases hydrationLoopTr_events states prev tr h _ hmem with ⟨t, _, he⟩ | hp | hs
      · exact Ev.noConfusion he
      · simp [Ev.isPrint] at hp
      · exact Ev.noConfusion hs

theorem freshnessLoopTr_no_stop (states : List LagState)
    (tr : List Ev) (h : freshnessLoopTr states = some tr) :
    tr.count Ev.setStop = 0 ∧ tr.count Ev.clearStop = 0 := by
  constructor <;>
    · rw [List.count_eq_zero]
      intro hmem
      rcases freshnessLoopTr_events states tr h _ hmem with ⟨t, _, he⟩ | hp | hs
      · exact Ev.noConfusion he
      · simp [Ev.isPrint] at hp
      · exact Ev.noConfusion hs

/-! ### Success-path decomposition of a run -/

theorem testRun_ok_decomp (env : Env) (h : exceptOk (testRun env).2 = true) :
    ∃ svs tr1 res1 trH trF,
      scanServices env.connections = Except.ok svs ∧
      initialDataStep env (objectCreationStep env initStats) = (tr1, Except.ok res1) ∧
      hydrationLoopTr env.hydrStates [] = some trH ∧
      freshnessLoopTr env.lagStates = some trF ∧
      (testRun env).1 = [Ev.print "header", Ev.print "Required services", Ev.up svs,
        Ev.print "Console available"] ++ tr1 ++ [Ev.print "Waiting for hydration"] ++ trH ++
        [Ev.print "Hydration complete", Ev.print "Waiting for freshness", Ev.sleep 10] ++
        trF ++ [Ev.print "Freshness complete"] ++ (workerPhase env res1).1 ∧
      (testRun env).2 = (workerPhase env res1).2 := by
  rcases hscan : scanServices env.connections with t | svs
  · simp [testRun, hscan, exceptOk] at h
  rcases hstep : initialDataStep env (objectCreationStep env initStats) with ⟨tr1, res⟩
  rcases res with e | res1
  · simp [testRun, hscan, hstep, exceptOk] at h
  rcases hH : hydrationLoopTr env.hydrStates [] with _ | trH
  · simp [testRun, hscan, hstep, hH, exceptOk] at h
  rcases hF : freshnessLoopTr env.lagStates with _ | trF
  · simp [testRun, hscan, hstep, hH, hF, exceptOk] at h
  refine ⟨svs, tr1, res1, trH, trF, rfl, rfl, rfl, rfl, ?_, ?_⟩ <;>
    simp only [testRun, hscan, hstep, hH, hF]

theorem initialDataStep_counts (env : Env) (stats : Stats) (tr1 : List Ev) (res1 : Stats)
    (h : initialDataStep env stats = (tr1, Except.ok res1)) :
    tr1.count Ev.setStop = (if env.flags.initial_data then 1 else 0) ∧
    tr1.count Ev.clearStop = (if env.flags.initial_data then 1 else 0) := by
  rcases hid : env.flags.initial_data
  · simp only [initialDataStep, hid, Bool.false_eq_true, if_false] at h
    split at h
    · rcases ho : stats.object_creation with _ | v <;> rw [ho] at h <;> simp at h
      rcases h with ⟨h1, h2⟩
      subst h1
      simp
    · simp at h
      rcases h with ⟨h1, h2⟩
      subst h1
      simp
  · simp only [initialDataStep, hid, if_true] at h
    rcases hs : env.initSamplerOutcome with _ | e <;> rw [hs] at h <;> simp at h
    rcases h with ⟨h1, h2⟩
    subst h1
    simp [List.count_cons]

theorem count_map_startThread_eq_zero (names : List String) (a : Ev)
    (h : ∀ n, a ≠ Ev.startThread n) :
    (names.map Ev.startThread).count a = 0 := by
  rw [List.count_eq_zero]
  intro hmem
  rcases List.mem_map.mp hmem with ⟨n, _, he⟩
  exact h n he.symm

theorem count_map_joinThread_eq_zero (names : List String) (k : Nat) (a : Ev)
    (h : ∀ n, a ≠ Ev.joinThread n) :
    ((names.take k).map Ev.joinThread).count a = 0 := by
  rw [List.count_eq_zero]
  intro hmem
  rcases List.mem_map.mp hmem with ⟨n, _, he⟩
  exact h n he.symm

theorem workerPhase_counts (env : Env) (stats : Stats) :
    (workerPhase env stats).1.count Ev.setStop =
      (if workerEntered env then 1 else 0) ∧
    (workerPhase env stats).1.count Ev.clearStop = 0 := by
  have h1 := count_map_startThread_eq_zero (allThreadNames env) Ev.setStop (by intro n h; cases h)
  have h2 := count_map_startThread_eq_zero (allThreadNames env) Ev.clearStop (by intro n h; cases h)
  have h3 := count_map_joinThread_eq_zero (allThreadNames env)
    (joinAll (workerOutcomes env)).1 Ev.setStop (by intro n h; cases h)
  have h4 := count_map_joinThread_eq_zero (allThreadNames env)
    (joinAll (workerOutcomes env)).1 Ev.clearStop (by intro n h; cases h)
  unfold workerPhase
  rcases hwe : workerEntered env
  · simp only [Bool.false_eq_true, if_false]
    constructor <;>
      · split <;> split <;> simp [List.count_cons]
  · simp only [if_true]
    rcases herr : (joinAll (workerOutcomes env)).2 with _ | e <;>
      constructor <;>
        · simp only [List.count_append, List.count_cons, List.count_nil, h1, h2, h3, h4]
          split <;> split <;> simp [List.count_cons]

theorem stop_signal_set_twice :
    exceptOk (testRun envC2).2 = true ∧
    (testRun envC2).1.count Ev.setStop = 2 ∧
    (testRun envC2).1.count Ev.clearStop = 1 := by decide

/-- C2 (amended): the per-run cancellation signal is set once per scope that
uses it rather than once per run: the initial-data step sets it once and
clears it after joining its scoped sampler, and the worker-pool phase sets
it once more (without clearing) when entered; a successful run therefore
sets the signal `(initial_data ? 1 : 0) + (worker phase entered ? 1 : 0)`
times and clears it `(initial_data ? 1 : 0)` times. -/
theorem stop_signal_per_scope (env : Env)
    (h : exceptOk (testRun env).2 = true) :
    (testRun env).1.count Ev.setStop =
      ((if env.flags.initial_data then 1 else 0) +
       (if workerEntered env then 1 else 0)) ∧
    (testRun env).1.count Ev.clearStop =
      (if env.flags.initial_data then 1 else 0) := by
  rcases testRun_ok_decomp env h with ⟨svs, tr1, res1, trH, trF, hscan, hstep, hH, hF, htr, _⟩
  rcases initialDataStep_counts env (objectCreationStep env initStats) tr1 res1 hstep with
    ⟨hi1, hi2⟩
  rcases hydrationLoopTr_no_stop env.hydrStates [] trH hH with ⟨hh1, hh2⟩
  rcases freshnessLoopTr_no_stop env.lagStates trF hF with ⟨hf1, hf2⟩
  rcases workerPhase_counts env res1 with ⟨hw1, hw2⟩
  rw [htr]
  simp only [List.count_append, List.count_cons, List.count_nil, hi1, hi2, hh1, hh2,
    hf1, hf2, hw1, hw2]
  constructor <;> simp

theorem stop_signal_per_scope_witness :
    (testRun envC2).1.count Ev.setStop =
      ((if envC2.flags.initial_data then 1 else 0) +
       (if workerEntered envC2 then 1 else 0)) ∧
    (testRun envC2).1.count Ev.clearStop =
      (if envC2.flags.initial_data then 1 else 0) :=
  stop_signal_per_scope envC2 (by decide)

/-! ### Skip-phase lemmas (C8) -/

theorem initialDataStep_preserves (env : Env) (stats : Stats) (tr1 : List Ev) (res1 : Stats)
    (h : initialDataStep env stats = (tr1, Except.ok res1)) :
    res1.queries = stats.queries ∧ res1.ingestions = stats.ingestions ∧
    res1.docker = stats.docker := by
  rcases hid : env.flags.initial_data
  · simp only [initialDataStep, hid, Bool.false_eq_true, if_false] at h
    split at h
    · rcases ho : stats.object_creation with _ | v <;> rw [ho] at h <;> simp at h
      rcases h with ⟨_, h2⟩
      subst h2
      exact ⟨rfl, rfl, rfl⟩
    · simp at h
      rcases h with ⟨_, h2⟩
      subst h2
      exact ⟨rfl, rfl, rfl⟩
  · simp only [initialDataStep, hid, if_true] at h
    rcases hs : env.initSamplerOutcome with _ | e <;> rw [hs] at h <;> simp at h
    rcases h with ⟨_, h2⟩
    rcases hei : env.flags.early_initial_data <;> rw [hei] at h2 <;> simp at h2
    · split at h2 <;>
        · subst h2
          exact ⟨rfl, rfl, rfl⟩
    · rcases ho : stats.object_creation with _ | v <;> rw [ho] at h2 <;> simp at h2
      split at h2 <;>
        · subst h2
          exact ⟨rfl, rfl, rfl⟩

theorem initialDataStep_trace_events (env : Env) (stats : Stats) (tr1 : List Ev)
    (res : Except TErr Stats) (h : initialDataStep env stats = (tr1, res)) :
    ∀ ev ∈ tr1, Ev.isPrint ev = true ∨ ev = Ev.startThread "docker-stats-initial" ∨
      ev = Ev.setStop ∨ ev = Ev.joinThread "docker-stats-initial" ∨ ev = Ev.clearStop := by
  rcases hid : env.flags.initial_data
  · simp only [initialDataStep, hid, Bool.false_eq_true, if_false] at h
    split at h
    · rcases ho : stats.object_creation with _ | v <;> rw [ho] at h <;>
        · simp at h
          rcases h with ⟨h1, _⟩
          subst h1
          intro ev hev
          simp at hev
    · simp at h
      rcases h with ⟨h1, _⟩
      subst h1
      intro ev hev
      simp at hev
  · simp only [initialDataStep, hid, if_true] at h
    rcases hs : env.initSamplerOutcome with _ | e
    · rw [hs] at h
      simp at h
      rcases h with ⟨h1, _⟩
      subst h1
      intro ev hev
      simp only [List.mem_cons, List.not_mem_nil, or_false] at hev
      rcases hev with rfl | rfl | rfl | rfl | rfl
      · exact Or.inl rfl
      · exact Or.inr (Or.inl rfl)
      · exact Or.inr (Or.inr (Or.inl rfl))
      · exact Or.inr (Or.inr (Or.inr (Or.inl rfl)))
      · exact Or.inr (Or.inr (Or.inr (Or.inr rfl)))
    · rw [hs] at h
      simp at h
      rcases h with ⟨h1, _⟩
      subst h1
      intro ev hev
      simp only [List.mem_cons, List.not_mem_nil, or_false] at hev
      rcases hev with rfl | rfl | rfl | rfl
      · exact Or.inl rfl
      · exact Or.inr (Or.inl rfl)
      · exact Or.inr (Or.inr (Or.inl rfl))
      · exact Or.inr (Or.inr (Or.inr (Or.inl rfl)))

theorem hydrationLoopTr_has_query (states : List HydrState) (prev : List String)
    (tr : List Ev) (h : hydrationLoopTr states prev = some tr) :
    ∃ r, Ev.hydrationQuery r ∈ tr := by
  rcases states with _ | ⟨s, rest⟩
  · simp [hydrationLoopTr] at h
  · simp only [hydrationLoopTr] at h
    split at h
    · rw [Option.some_inj] at h
      subst h
      exact ⟨hydrationQuery s, List.mem_singleton.mpr rfl⟩
    · rcases hrec : hydrationLoopTr rest (hydrationQuery s) with _ | tr' <;> rw [hrec] at h
      · simp at h
      · rw [Option.some_inj] at h
        subst h
        exact ⟨hydrationQuery s, List.mem_cons_self _ _⟩

theorem freshnessLoopTr_has_query (states : List LagState)
    (tr : List Ev) (h : freshnessLoopTr states = some tr) :
    ∃ r, Ev.lagQuery r ∈ tr := by
  rcases states with _ | ⟨s, rest⟩
  · simp [freshnessLoopTr] at h
  · simp only [freshnessLoopTr] at h
    split at h
    · rw [Option.some_inj] at h
      subst h
      exact ⟨freshnessQuery s, List.mem_singleton.mpr rfl⟩
    · rcases hrec : freshnessLoopTr rest with _ | tr' <;> rw [hrec] at h
      · simp at h
      · rw [Option.some_inj] at h
        subst h
        exact ⟨freshnessQuery s, List.mem_cons_self _ _⟩

theorem workerPhase_skip (env : Env) (stats : Stats)
    (hri : env.flags.run_ingestions = false) (hrq : env.flags.run_queries = false) :
    workerPhase env stats =
      ([Ev.print "No continuous ingestions or queries defined, skipping phase"],
       Except.ok stats) := by
  have hwe : workerEntered env = false := by
    simp [workerEntered, workerNames, hri, hrq]
  simp [workerPhase, hwe, hri, hrq]

theorem initialDataStep_ok_general (env : Env) (stats : Stats)
    (hsamp : env.initSamplerOutcome = none)
    (hobj : env.flags.early_initial_data = true → stats.object_creation ≠ none) :
    ∃ tr1 res1, initialDataStep env stats = (tr1, Except.ok res1) := by
  rcases hid : env.flags.initial_data
  · rcases hei : env.flags.early_initial_data
    · exact ⟨[], stats, by simp [initialDataStep, hid, hei]⟩
    · rcases ho : stats.object_creation with _ | v
      · exact absurd ho (hobj hei)
      · exact ⟨[], { stats with object_creation := some (v + env.tObjPart2) },
          by simp [initialDataStep, hid, hei, ho]⟩
  · rcases initialDataStep_ok env stats hid hsamp hobj with ⟨res1, hres, _⟩
    rcases hstep : initialDataStep env stats with ⟨tr1, res⟩
    rw [hstep] at hres
    simp at hres
    subst hres
    exact ⟨tr1, res1, rfl⟩

/-- C8 (amended): for every run with `run_ingestions=False` and
`run_queries=False` — except the flag combination `create_objects=False`,
`early_initial_data=True`, which raises KeyError before the convergence
waits — the worker-pool phase is skipped with the "no continuous ingestions
or queries" notice, no worker thread is started and no timed wait occurs,
both the hydration and freshness waits still run, and the returned RunStats
keeps the `queries`/`ingestions` counters at zero with no `docker` entry. -/
theorem skip_phase_still_converges (env : Env)
    (hri : env.flags.run_ingestions = false)
    (hrq : env.flags.run_queries = false)
    (hbug : env.flags.early_initial_data = true → env.flags.create_objects = true)
    (hsamp : env.initSamplerOutcome = none)
    (hscan : ∀ t ∈ env.connections, t ∈ knownConnectionTypes)
    (hhyd : (hydrationLoopTr env.hydrStates []).isSome = true)
    (hfresh : (freshnessLoopTr env.lagStates).isSome = true) :
    ∃ stats, (testRun env).2 = Except.ok stats ∧
      stats.queries = ⟨0, 0, 0, none, none⟩ ∧
      stats.ingestions = ⟨0, 0, 0, none, none⟩ ∧
      stats.docker = none ∧
      Ev.print "No continuous ingestions or queries defined, skipping phase" ∈
        (testRun env).1 ∧
      (∃ r, Ev.hydrationQuery r ∈ (testRun env).1) ∧
      (∃ r, Ev.lagQuery r ∈ (testRun env).1) ∧
      (∀ n, Ev.waitStop n ∉ (testRun env).1) ∧
      (∀ n, Ev.startThread n ∈ (testRun env).1 → n = "docker-stats-initial") := by
  rcases scanServicesAux_ok env.connections [] hscan with ⟨svs, hsvs⟩
  have hscan' : scanServices env.connections = Except.ok svs := hsvs
  have hobj : env.flags.early_initial_data = true →
      (objectCreationStep env initStats).object_creation ≠ none := by
    intro hei
    simp [objectCreationStep, hbug hei, initStats]
  rcases initialDataStep_ok_general env (objectCreationStep env initStats) hsamp hobj with
    ⟨tr1, res1, hstep⟩
  rcases Option.isSome_iff_exists.mp hhyd with ⟨trH, hH⟩
  rcases Option.isSome_iff_exists.mp hfresh with ⟨trF, hF⟩
  have hwp := workerPhase_skip env res1 hri hrq
  have htr : (testRun env).1 =
      [Ev.print "header", Ev.print "Required services", Ev.up svs,
       Ev.print "Console available"] ++ tr1 ++ [Ev.print "Waiting for hydration"] ++ trH ++
      [Ev.print "Hydration complete", Ev.print "Waiting for freshness", Ev.sleep 10] ++
      trF ++ [Ev.print "Freshness complete"] ++
      [Ev.print "No continuous ingestions or queries defined, skipping phase"] := by
    simp only [testRun, hscan', hstep, hH, hF, hwp]
  have hres : (testRun env).2 = Except.ok res1 := by
    simp only [testRun, hscan', hstep, hH, hF, hwp]
  have hocs : (objectCreationStep env initStats).queries = initStats.queries ∧
      (objectCreationStep env initStats).ingestions = initStats.ingestions ∧
      (objectCreationStep env initStats).docker = initStats.docker := by
    unfold objectCreationStep
    split <;> exact ⟨rfl, rfl, rfl⟩
  rcases initialDataStep_preserves env _ tr1 res1 hstep with ⟨hq, hi, hd⟩
  have h1ev := initialDataStep_trace_events env _ tr1 _ hstep
  have hHev := hydrationLoopTr_events env.hydrStates [] trH hH
  have hFev := freshnessLoopTr_events env.lagStates trF hF
  have hprintP : ∀ ev : Ev, ev.isPrint = true →
      (∀ n, ev ≠ Ev.waitStop n) ∧
      (∀ n, ev = Ev.startThread n → n = "docker-stats-initial") := by
    intro ev hp
    cases ev <;> simp [Ev.isPrint] at hp
    exact ⟨fun n h => Ev.noConfusion h, fun n h => Ev.noConfusion h⟩
  have hsegP : ∀ ev ∈ (testRun env).1,
      (∀ n, ev ≠ Ev.waitStop n) ∧
      (∀ n, ev = Ev.startThread n → n = "docker-stats-initial") := by
    rw [htr]
    intro ev hev
    rcases List.mem_append.mp hev with hev | hev
    rotate_left
    · fin_cases hev
      exact ⟨fun n h => Ev.noConfusion h, fun n h => Ev.noConfusion h⟩
    rcases List.mem_append.mp hev with hev | hev
    rotate_left
    · fin_cases hev
      exact ⟨fun n h => Ev.noConfusion h, fun n h => Ev.noConfusion h⟩
    rcases List.mem_append.mp hev with hev | hev
    rotate_left
    · rcases hFev _ hev with ⟨t, _, rfl⟩ | hp | rfl
      · exact ⟨fun n h => Ev.noConfusion h, fun n h => Ev.noConfusion h⟩
      · exact hprintP ev hp
      · exact ⟨fun n h => Ev.noConfusion h, fun n h => Ev.noConfusion h⟩
    rcases List.mem_append.mp hev with hev | hev
    rotate_left
    · fin_cases hev <;>
        exact ⟨fun n h => Ev.noConfusion h, fun n h => Ev.noConfusion h⟩
    rcases List.mem_append.mp hev with hev | hev
    rotate_left
    · rcases hHev _ hev with ⟨t, _, rfl⟩ | hp | rfl
      · exact ⟨fun n h => Ev.noConfusion h, fun n h => Ev.noConfusion h⟩
      · exact hprintP ev hp
      · exact ⟨fun n h => Ev.noConfusion h, fun n h => Ev.noConfusion h⟩
    rcases List.mem_append.mp hev with hev | hev
    rotate_left
    · fin_cases hev
      exact ⟨fun n h => Ev.noConfusion h, fun n h => Ev.noConfusion h⟩
    rcases List.mem_append.mp hev with hev | hev
    · fin_cases hev <;>
        exact ⟨fun n h => Ev.noConfusion h, fun n h => Ev.noConfusion h⟩
    · rcases h1ev _ hev with hp | rfl | rfl | rfl | rfl
      · exact hprintP ev hp
      · refine ⟨fun n h => Ev.noConfusion h, fun n h => ?_⟩
        injection h with h'
        exact h'.symm
      · exact ⟨fun n h => Ev.noConfusion h, fun n h => Ev.noConfusion h⟩
      · exact ⟨fun n h => Ev.noConfusion h, fun n h => Ev.noConfusion h⟩
      · exact ⟨fun n h => Ev.noConfusion h, fun n h => Ev.noConfusion h⟩
  refine ⟨res1, hres, ?_, ?_, ?_, ?_, ?_, ?_, ?_, ?_⟩
  · rw [hq, hocs.1]; rfl
  · rw [hi, hocs.2.1]; rfl
  · rw [hd, hocs.2.2]; rfl
  · rw [htr]; simp
  · rcases hydrationLoopTr_has_query env.hydrStates [] trH hH with ⟨r, hr⟩
    refine ⟨r, ?_⟩
    rw [htr]
    simp [hr]
  · rcases freshnessLoopTr_has_query env.lagStates trF hF with ⟨r, hr⟩
    refine ⟨r, ?_⟩
    rw [htr]
    simp [hr]
  · intro n hmem
    exact (hsegP _ hmem).1 n rfl
  · intro n hmem
    exact (hsegP _ hmem).2 n rfl

theorem skip_phase_crash_counterexample :
    (testRun envC8).2 = Except.error (TErr.keyError "object_creation") ∧
    (testRun envC8).1.countP Ev.isHydrationQuery = 0 ∧
    (testRun envC8).1.countP Ev.isLagQuery = 0 := by decide

theorem skip_phase_still_converges_witness :
    ∃ stats, (testRun envC8ok).2 = Except.ok stats ∧
      stats.queries = ⟨0, 0, 0, none, none⟩ ∧
      stats.ingestions = ⟨0, 0, 0, none, none⟩ ∧
      stats.docker = none ∧
      Ev.print "No continuous ingestions or queries defined, skipping phase" ∈
        (testRun envC8ok).1 ∧
      (∃ r, Ev.hydrationQuery r ∈ (testRun envC8ok).1) ∧
      (∃ r, Ev.lagQuery r ∈ (testRun envC8ok).1) ∧
      (∀ n, Ev.waitStop n ∉ (testRun envC8ok).1) ∧
      (∀ n, Ev.startThread n ∈ (testRun envC8ok).1 → n = "docker-stats-initial") :=
  skip_phase_still_converges envC8ok rfl rfl (by decide) rfl (by decide) (by decide)
    (by decide)

/-! ### Hydration query and loop lemmas (C4) -/

theorem mem_joinNotHydrated (objects : List (Nat × String)) (statuses : List (Nat × Bool))
    (sinks : List Nat) (n : String) :
    n ∈ joinNotHydrated objects statuses sinks ↔
      ∃ id, (id, n) ∈ objects ∧ (id, false) ∈ statuses ∧
        strStarts n "mz_" = false ∧ id ∉ sinks := by
  unfold joinNotHydrated
  simp only [List.mem_flatMap, List.mem_filterMap]
  constructor
  · rintro ⟨⟨oid, oname⟩, ho, ⟨hid, hb⟩, hh, hif⟩
    split at hif
    · rename_i hc
      rcases hc with ⟨hc1, hc2, hc3, hc4⟩
      simp only at hc1 hc2 hc3 hc4
      rw [Option.some_inj] at hif
      simp only at hif
      rw [hif] at ho
      rw [hc1, hc2] at hh
      refine ⟨oid, ho, hh, ?_, hc4⟩
      rw [← hif]
      simpa using hc3
    · exact absurd hif (Option.noConfusion)
  · rintro ⟨id, hobj, hstat, hmz, hsink⟩
    refine ⟨(id, n), hobj, ⟨(id, false), hstat, ?_⟩⟩
    rw [if_pos]
    exact ⟨rfl, rfl, by simp [hmz], hsink⟩

theorem mem_hydrationQuery (s : HydrState) (n : String) :
    n ∈ hydrationQuery s ↔
      ∃ id, (id, n) ∈ s.objects ∧ strStarts n "mz_" = false ∧ id ∉ s.sinks ∧
        ((id, false) ∈ s.hydration ∨ (id, false) ∈ s.computeHydration) := by
  unfold hydrationQuery
  rw [List.mem_dedup, List.mem_insertionSort, List.mem_append,
      mem_joinNotHydrated, mem_joinNotHydrated]
  constructor
  · rintro (⟨id, h1, h2, h3, h4⟩ | ⟨id, h1, h2, h3, h4⟩)
    · exact ⟨id, h1, h3, h4, Or.inl h2⟩
    · exact ⟨id, h1, h3, h4, Or.inr h2⟩
  · rintro ⟨id, h1, h2, h3, h4 | h4⟩
    · exact Or.inl ⟨id, h1, h4, h2, h3⟩
    · exact Or.inr ⟨id, h1, h4, h2, h3⟩

theorem hydrationLoopTr_isSome_iff (states : List HydrState) :
    ∀ prev, (hydrationLoopTr states prev).isSome = true ↔
      ∃ t ∈ states, hydrationQuery t = [] := by
  induction states with
  | nil => intro prev; simp [hydrationLoopTr]
  | cons s rest ih =>
    intro prev
    by_cases hnh : hydrationQuery s = []
    · simp only [hydrationLoopTr, if_pos hnh]
      simp only [Option.isSome_some, true_iff]
      exact ⟨s, List.mem_cons_self s rest, hnh⟩
    · have hrec := ih (hydrationQuery s)
      simp only [hydrationLoopTr, if_neg hnh]
      constructor
      · intro h
        rcases hr : hydrationLoopTr rest (hydrationQuery s) with _ | tr'
        · rw [hr] at h; simp at h
        · have : ∃ t ∈ rest, hydrationQuery t = [] := hrec.mp (by rw [hr]; rfl)
          rcases this with ⟨t, ht, he⟩
          exact ⟨t, List.mem_cons_of_mem s ht, he⟩
      · rintro ⟨t, ht, he⟩
        rcases List.mem_cons.mp ht with rfl | ht'
        · exact absurd he hnh
        · have h2 : (hydrationLoopTr rest (hydrationQuery s)).isSome = true :=
            hrec.mpr ⟨t, ht', he⟩
          rcases Option.isSome_iff_exists.mp h2 with ⟨tr', hr⟩
          rw [hr]
          rfl

theorem hydrationLoopTr_counts (states : List HydrState) :
    ∀ prev tr, hydrationLoopTr states prev = some tr →
      tr.countP Ev.isHydrationQuery = tr.count (Ev.sleep 1) + 1 ∧
      tr.countP Ev.isHydrationQuery =
        ((states.map hydrationQuery).takeWhile (fun r => r ≠ [])).length + 1 ∧
      tr.countP Ev.isPrint =
        countChanges ((states.map hydrationQuery).takeWhile (fun r => r ≠ [])) prev ∧
      (∀ n, Ev.sleep n ∈ tr → n = 1) := by
  induction states with
  | nil => intro prev tr h; simp [hydrationLoopTr] at h
  | cons s rest ih =>
    intro prev tr h
    by_cases hnh : hydrationQuery s = []
    · simp only [hydrationLoopTr, if_pos hnh] at h
      rw [Option.some_inj] at h
      subst h
      have htw : ((s :: rest).map hydrationQuery).takeWhile (fun r => r ≠ []) = [] := by
        rw [List.map_cons, List.takeWhile_cons_of_neg]
        simp [hnh]
      rw [htw]
      refine ⟨?_, ?_, ?_, ?_⟩
      · simp [List.countP_cons, List.count_cons, Ev.isHydrationQuery]
      · simp [List.countP_cons, Ev.isHydrationQuery]
      · simp [List.countP_cons, Ev.isPrint, countChanges]
      · intro n hn
        simp at hn
    · simp only [hydrationLoopTr, if_neg hnh] at h
      rcases hrec : hydrationLoopTr rest (hydrationQuery s) with _ | tr'
      · rw [hrec] at h; simp at h
      · rw [hrec] at h
        rw [Option.some_inj] at h
        subst h
        rcases ih (hydrationQuery s) tr' hrec with ⟨ih1, ih2, ih3, ih4⟩
        have htw : ((s :: rest).map hydrationQuery).takeWhile (fun r => r ≠ []) =
            hydrationQuery s :: ((rest.map hydrationQuery).takeWhile (fun r => r ≠ [])) := by
          rw [List.map_cons, List.takeWhile_cons_of_pos]
          simp [hnh]
        rw [htw]
        by_cases hch : hydrationQuery s ≠ prev
        · rw [if_pos hch, List.singleton_append]
          refine ⟨?_, ?_, ?_, ?_⟩
          · simp only [List.countP_cons, List.count_cons, Ev.isHydrationQuery, Ev.isPrint]
            simp only [ih1]
            simp
          · simp only [List.countP_cons, List.length_cons, Ev.isHydrationQuery]
            simp only [ih2]
            simp
          · simp only [List.countP_cons, countChanges, if_pos hch, Ev.isPrint]
            simp only [ih3]
            simp only [cond_true, cond_false, Bool.false_eq_true, if_false, if_true]
            omega
          · intro n hn
            simp only [List.mem_cons] at hn
            rcases hn with hn | hn | hn | hn
            · exact Ev.noConfusion hn
            · exact Ev.noConfusion hn
            · injection hn
            · exact ih4 n hn
        · rw [if_neg hch, List.nil_append]
          have hch' : hydrationQuery s = prev := by
            simpa [Decidable.not_not] using hch
          refine ⟨?_, ?_, ?_, ?_⟩
          · simp only [List.countP_cons, List.count_cons, Ev.isHydrationQuery, Ev.isPrint]
            simp only [ih1]
            simp
          · simp only [List.countP_cons, List.length_cons, Ev.isHydrationQuery]
            simp only [ih2]
            simp
          · simp only [List.countP_cons, countChanges, if_neg hch, Ev.isPrint]
            simp only [ih3]
            simp
          · intro n hn
            simp only [List.mem_cons] at hn
            rcases hn with hn | hn | hn
            · exact Ev.noConfusion hn
            · injection hn
            · exact ih4 n hn

/-- C4: the hydration wait's query returns exactly the user objects that are
not yet hydrated in either hydration-status relation, excluding
system-internal (`mz_`-prefixed) objects and sinks; the polling loop queries
once per iteration, sleeps one time unit between consecutive queries (so a
source yielding two non-empty sets then an empty one gives exactly 3 calls
and 2 sleeps), prints the not-hydrated set exactly when it differs from the
previous iteration's, and returns success exactly when a query returns the
empty set. -/
theorem hydration_wait_correct (s : HydrState) (states : List HydrState) :
    (∀ n, n ∈ hydrationQuery s ↔
      ∃ id, (id, n) ∈ s.objects ∧ strStarts n "mz_" = false ∧ id ∉ s.sinks ∧
        ((id, false) ∈ s.hydration ∨ (id, false) ∈ s.computeHydration)) ∧
    ((hydrationLoopTr states []).isSome = true ↔
      ∃ t ∈ states, hydrationQuery t = []) ∧
    (∀ tr, hydrationLoopTr states [] = some tr →
      tr.countP Ev.isHydrationQuery = tr.count (Ev.sleep 1) + 1 ∧
      tr.countP Ev.isHydrationQuery =
        ((states.map hydrationQuery).takeWhile (fun r => r ≠ [])).length + 1 ∧
      tr.countP Ev.isPrint =
        countChanges ((states.map hydrationQuery).takeWhile (fun r => r ≠ [])) [] ∧
      (∀ n, Ev.sleep n ∈ tr → n = 1)) :=
  ⟨fun n => mem_hydrationQuery s n, hydrationLoopTr_isSome_iff states [],
   fun tr h => hydrationLoopTr_counts states [] tr h⟩

theorem hydration_wait_correct_witness :
    ((hydrationLoopTr hydrScenario []).isSome = true ↔
      ∃ t ∈ hydrScenario, hydrationQuery t = []) ∧
    ((hydrationLoopTr hydrScenario []).map
      (fun tr => (tr.countP Ev.isHydrationQuery, tr.count (Ev.sleep 1),
                  tr.countP Ev.isPrint)) = some (3, 2, 1)) :=
  ⟨(hydration_wait_correct hydrStateA hydrScenario).2.1, by decide⟩

/-! ### Freshness query and loop lemmas (C3) -/

theorem mem_lagQualifying (s : LagState) (n : String) (gl : Option Nat) :
    (n, gl) ∈ lagQualifying s ↔
      ∃ id, (id, n) ∈ s.objects ∧ (id, gl) ∈ s.lag ∧ strStarts n "mz_" = false ∧
        id ∉ s.sinks ∧ lagExceeds gl = true := by
  unfold lagQualifying
  simp only [List.mem_flatMap, List.mem_filterMap]
  constructor
  · rintro ⟨⟨lid, lgl⟩, hl, ⟨oid, oname⟩, ho, hif⟩
    split at hif
    · rename_i hc
      rcases hc with ⟨hc1, hc2, hc3, hc4⟩
      simp only at hc1 hc2 hc3 hc4
      rw [Option.some_inj] at hif
      simp only [Prod.mk.injEq] at hif
      rcases hif with ⟨hn, hg⟩
      subst hn
      subst hg
      rw [hc1] at ho hc3
      exact ⟨lid, ho, hl, by simpa using hc2, hc3, hc4⟩
    · exact absurd hif (Option.noConfusion)
  · rintro ⟨id, hobj, hlag, hmz, hsink, hex⟩
    refine ⟨(id, gl), hlag, ⟨(id, n), hobj, ?_⟩⟩
    rw [if_pos]
    exact ⟨rfl, by simp [hmz], hsink, hex⟩

theorem freshnessTop_sorted (s : LagState) :
    List.Pairwise lagBefore (freshnessTop s) :=
  (List.sorted_insertionSort lagBefore (lagQualifying s)).sublist
    (List.take_sublist 5 _)

theorem freshnessTop_before_dropped (s : LagState) :
    ∀ a ∈ freshnessTop s,
      ∀ b ∈ (List.insertionSort lagBefore (lagQualifying s)).drop 5, lagBefore a b := by
  have hs : List.Pairwise lagBefore (List.insertionSort lagBefore (lagQualifying s)) :=
    List.sorted_insertionSort lagBefore (lagQualifying s)
  rw [← List.take_append_drop 5 (List.insertionSort lagBefore (lagQualifying s))] at hs
  exact fun a ha b hb => (List.pairwise_append.mp hs).2.2 a ha b hb

theorem freshnessQuery_length_le (s : LagState) : (freshnessQuery s).length ≤ 5 := by
  unfold freshnessQuery freshnessTop
  rw [List.length_map]
  exact List.length_take_le 5 _

theorem freshnessQuery_null_sentinel (s : LagState) :
    ∀ m, (m, none) ∈ freshnessTop s → (m, lagSentinelMs) ∈ freshnessQuery s := by
  intro m hm
  refine List.mem_map.mpr ⟨(m, none), hm, ?_⟩
  simp

theorem freshnessQuery_rows (s : LagState) :
    ∀ m d, (m, d) ∈ freshnessQuery s →
      ∃ gl, (m, gl) ∈ lagQualifying s ∧ d = Option.getD gl lagSentinelMs := by
  intro m d hm
  rcases List.mem_map.mp hm with ⟨⟨m', gl⟩, hmem, he⟩
  simp only [Prod.mk.injEq] at he
  rcases he with ⟨rfl, rfl⟩
  refine ⟨gl, ?_, rfl⟩
  have : (m', gl) ∈ List.insertionSort lagBefore (lagQualifying s) :=
    List.mem_of_mem_take hmem
  exact (List.mem_insertionSort lagBefore).mp this

theorem freshnessLoopTr_isSome_iff (states : List LagState) :
    (freshnessLoopTr states).isSome = true ↔
      ∃ t ∈ states, freshnessQuery t = [] := by
  induction states with
  | nil => simp [freshnessLoopTr]
  | cons s rest ih =>
    by_cases hr : freshnessQuery s = []
    · simp only [freshnessLoopTr, if_pos hr]
      simp only [Option.isSome_some, true_iff]
      exact ⟨s, List.mem_cons_self s rest, hr⟩
    · simp only [freshnessLoopTr, if_neg hr]
      constructor
      · intro h
        rcases hrec : freshnessLoopTr rest with _ | tr'
        · rw [hrec] at h; simp at h
        · have : ∃ t ∈ rest, freshnessQuery t = [] := ih.mp (by rw [hrec]; rfl)
          rcases this with ⟨t, ht, he⟩
          exact ⟨t, List.mem_cons_of_mem s ht, he⟩
      · rintro ⟨t, ht, he⟩
        rcases List.mem_cons.mp ht with rfl | ht'
        · exact absurd he hr
        · have h2 : (freshnessLoopTr rest).isSome = true := ih.mpr ⟨t, ht', he⟩
          rcases Option.isSome_iff_exists.mp h2 with ⟨tr', hrec⟩
          rw [hrec]
          rfl

theorem freshnessLoopTr_counts (states : List LagState) :
    ∀ tr, freshnessLoopTr states = some tr →
      tr.countP Ev.isLagQuery = tr.count (Ev.sleep 5) + 1 ∧
      (∀ n, Ev.sleep n ∈ tr → n = 5) := by
  induction states with
  | nil => intro tr h; simp [freshnessLoopTr] at h
  | cons s rest ih =>
    intro tr h
    by_cases hr : freshnessQuery s = []
    · simp only [freshnessLoopTr, if_pos hr] at h
      rw [Option.some_inj] at h
      subst h
      refine ⟨?_, ?_⟩
      · simp [List.countP_cons, List.count_cons, Ev.isLagQuery]
      · intro n hn
        simp at hn
    · simp only [freshnessLoopTr, if_neg hr] at h
      rcases hrec : freshnessLoopTr rest with _ | tr'
      · rw [hrec] at h; simp at h
      · rw [hrec] at h
        rw [Option.some_inj] at h
        subst h
        rcases ih tr' hrec with ⟨ih1, ih2⟩
        refine ⟨?_, ?_⟩
        · simp only [List.countP_cons, List.count_cons, Ev.isLagQuery]
          simp only [ih1]
          simp
        · intro n hn
          simp only [List.mem_cons] at hn
          rcases hn with hn | hn | hn | hn
          · exact Ev.noConfusion hn
          · exact Ev.noConfusion hn
          · injection hn
          · exact ih2 n hn

theorem freshnessWaitTr_warmup (states : List LagState) :
    ∀ tr, freshnessWaitTr states = some tr →
      tr[1]? = some (Ev.sleep 10) ∧ tr.count (Ev.sleep 10) = 1 ∧
      tr.countP Ev.isLagQuery = tr.count (Ev.sleep 5) + 1 := by
  intro tr h
  unfold freshnessWaitTr at h
  rcases hrec : freshnessLoopTr states with _ | trL
  · rw [hrec] at h; simp at h
  · rw [hrec] at h
    simp only [Option.map_some'] at h
    rw [Option.some_inj] at h
    subst h
    rcases freshnessLoopTr_counts states trL hrec with ⟨hc, hsleep⟩
    refine ⟨by simp, ?_, ?_⟩
    · have hz : trL.count (Ev.sleep 10) = 0 := by
        rw [List.count_eq_zero]
        intro hmem
        have := hsleep 10 hmem
        omega
      simp [List.count_cons, hz]
    · have h5 : (Ev.sleep 10 = Ev.sleep 5) = False := by simp
      simp [List.countP_cons, List.count_cons, Ev.isLagQuery, hc]

/-- C3: the freshness wait performs the 10-unit warm-up sleep exactly once,
immediately before its first lag query; each iteration's query returns at
most 5 rows, exactly the user objects (non-`mz_`, non-sink) whose
materialization lag is NULL or above the 10-second threshold, ordered
descending by lag with NULL ranked before every finite lag and displayed as
the 999-hour sentinel; top means no dropped row outranks a returned one; on
a non-empty result the loop sleeps 5 units and retries, and it terminates
exactly when a query returns the empty set. -/
theorem freshness_wait_correct (s : LagState) (states : List LagState) :
    (∀ n gl, (n, gl) ∈ lagQualifying s ↔
      ∃ id, (id, n) ∈ s.objects ∧ (id, gl) ∈ s.lag ∧ strStarts n "mz_" = false ∧
        id ∉ s.sinks ∧ lagExceeds gl = true) ∧
    (freshnessQuery s).length ≤ 5 ∧
    List.Pairwise lagBefore (freshnessTop s) ∧
    (∀ a ∈ freshnessTop s,
      ∀ b ∈ (List.insertionSort lagBefore (lagQualifying s)).drop 5, lagBefore a b) ∧
    (∀ m, (m, none) ∈ freshnessTop s → (m, lagSentinelMs) ∈ freshnessQuery s) ∧
    (∀ m d, (m, d) ∈ freshnessQuery s →
      ∃ gl, (m, gl) ∈ lagQualifying s ∧ d = Option.getD gl lagSentinelMs) ∧
    ((freshnessLoopTr states).isSome = true ↔ ∃ t ∈ states, freshnessQuery t = []) ∧
    (∀ tr, freshnessWaitTr states = some tr →
      tr[1]? = some (Ev.sleep 10) ∧ tr.count (Ev.sleep 10) = 1 ∧
      tr.countP Ev.isLagQuery = tr.count (Ev.sleep 5) + 1) :=
  ⟨fun n gl => mem_lagQualifying s n gl, freshnessQuery_length_le s,
   freshnessTop_sorted s, freshnessTop_before_dropped s,
   freshnessQuery_null_sentinel s, freshnessQuery_rows s,
   freshnessLoopTr_isSome_iff states, freshnessWaitTr_warmup states⟩

theorem freshness_wait_correct_witness :
    ((freshnessLoopTr lagScenario).isSome = true ↔
      ∃ t ∈ lagScenario, freshnessQuery t = []) ∧
    freshnessQuery lagStateAB = [("a", 3596400000), ("b", 20000)] ∧
    ((freshnessWaitTr lagScenario).map
      (fun tr => (tr[1]?, tr.count (Ev.sleep 10), tr.countP Ev.isLagQuery,
                  tr.count (Ev.sleep 5))) =
      some (some (Ev.sleep 10), 1, 2, 1)) :=
  ⟨(freshness_wait_correct lagStateAB lagScenario).2.2.2.2.2.2.1, by decide, by decide⟩

end WorkloadReplay
